import Mathlib

/-
Verification of the spectral decomposition and masked resynthesis pipeline
(BufNMF) of the bounce repository, as a shallow embedding of
src/native/src/buf_nmf.cpp.  Numeric values are modelled by rationals.
The NMF engine, STFT/ISTFT and RatioMask implementations live in the
vendored flucoma-core library, which is not part of the source tree here;
those collaborators are modelled from the specification where their
behaviour decides a claim, and are otherwise abstract parameters.
-/

namespace Bounce

/-- Values crossing the N-API boundary, as the methods inspect them:
typed float arrays, numbers, arrays of numeric rows, and anything else. -/
inductive JsVal where
  | f32array (xs : List ℚ)
  | num (x : ℚ)
  | jsarray (rows : List (List ℚ))
  | other
deriving Repr, DecidableEq

/-- The error kinds the binding can raise: the argument type error thrown at
the top of Process and Resynthesize, and the component-index range error
thrown by Resynthesize (message: Component index out of range). -/
inductive NapiError where
  | typeError
  | rangeError
deriving Repr, DecidableEq

/-- The BufNMF member configuration with the member initialisers of the
C++ class: components 1, iterations 100, fftSize 1024, hopSize -1,
windowSize -1, seed -1.  The constructor copies option fields over these
defaults without any validation. -/
structure BufNMFConfig where
  components : Int := 1
  iterations : Int := 100
  fftSize : Int := 1024
  hopSize : Int := -1
  windowSize : Int := -1
  seed : Int := -1
deriving Repr, DecidableEq

/-- Effective hop size: mHopSize when positive, else mFFTSize / 2. -/
def effHopSize (c : BufNMFConfig) : Int :=
  if c.hopSize > 0 then c.hopSize else c.fftSize / 2

/-- Effective window size: mWindowSize when positive, else mFFTSize. -/
def effWindowSize (c : BufNMFConfig) : Int :=
  if c.windowSize > 0 then c.windowSize else c.fftSize

/-- Bin count nBins = mFFTSize / 2 + 1. -/
def nBins (c : BufNMFConfig) : Int := c.fftSize / 2 + 1

/-- Frame count nWindows = floor((numSamples + hopSize) / hopSize),
integer division as in the C++ expression.  Caution: when the effective
hop size is not positive the C++ expression divides by zero (undefined
behaviour), while Nat division totalises that case to 0; no theorem in
this file relies on the value of frameCount at hop = 0. -/
def frameCount (numSamples hop : ℕ) : ℕ := (numSamples + hop) / hop

/-- A dense matrix, indexed the way FluidTensor entries are accessed. -/
abbrev Mat := ℕ → ℕ → ℚ

/-- Modelled from the spec: the machine-epsilon additive floor used by the
NMF multiplicative updates and by the ratio mask (flucoma-core, not under
src/). -/
def nmfEps : ℚ := 1 / 2 ^ 52

/-- Modelled from the spec: a deterministic pseudo-random value in [0, 1)
drawn from a non-negative seed, used to initialise bases and activations
(flucoma-core NMF initialisation, not under src/). -/
def rngVal (seed idx : ℕ) : ℚ :=
  (((seed * 1103515245 + idx * 12345 + 12345) % 2 ^ 31 : ℕ) : ℚ) / 2 ^ 31

/-- Modelled from the spec: NMF initialisation is non-negative; for
seed at least 0 it is deterministic in the seed, otherwise it draws from a
system entropy source (flucoma-core, not under src/). -/
def initVal (seed : Int) (entropy : ℕ → ℚ) (idx : ℕ) : ℚ :=
  if 0 ≤ seed then rngVal seed.toNat idx else |entropy idx|

/-- Reconstruction entry: (activations times bases) at frame f, bin b,
summed over the component index. -/
def reconAt (W H : Mat) (Kn : ℕ) (f b : ℕ) : ℚ :=
  ∑ k ∈ Finset.range Kn, H f k * W k b

/-- Modelled from the spec: one multiplicative update of the activations,
scaling each entry by observed magnitude projected through the bases over
the reconstructed magnitude, with the additive floor (flucoma-core NMF,
not under src/). -/
def updateH (V W H : Mat) (Kn Bn : ℕ) : Mat := fun f k =>
  H f k * ((∑ b ∈ Finset.range Bn, W k b * V f b)
    / ((∑ b ∈ Finset.range Bn, W k b * reconAt W H Kn f b) + nmfEps))

/-- Modelled from the spec: the symmetric multiplicative update of the
bases using the updated activations (flucoma-core NMF, not under src/). -/
def updateW (V W H : Mat) (Kn Fn : ℕ) : Mat := fun k b =>
  W k b * ((∑ f ∈ Finset.range Fn, H f k * V f b)
    / ((∑ f ∈ Finset.range Fn, H f k * reconAt W H Kn f b) + nmfEps))

/-- One NMF iteration: update the activations, then the bases. -/
def nmfStep (V : Mat) (Kn Fn Bn : ℕ) (WH : Mat × Mat) : Mat × Mat :=
  (updateW V WH.1 (updateH V WH.1 WH.2 Kn Bn) Kn Fn,
   updateH V WH.1 WH.2 Kn Bn)

/-- Iterate the NMF update pass a given number of times. -/
def nmfIter (V : Mat) (Kn Fn Bn : ℕ) : ℕ → Mat × Mat → Mat × Mat
  | 0, WH => WH
  | n + 1, WH => nmfIter V Kn Fn Bn n (nmfStep V Kn Fn Bn WH)

/-- Modelled from the spec: the initial bases matrix drawn entrywise from
the seeded initialiser. -/
def nmfInitW (seed : Int) (entropy : ℕ → ℚ) (Bn : ℕ) : Mat := fun k b =>
  initVal seed entropy (2 * (k * Bn + b))

/-- Modelled from the spec: the initial activations matrix drawn entrywise
from the seeded initialiser. -/
def nmfInitH (seed : Int) (entropy : ℕ → ℚ) (Kn : ℕ) : Mat := fun f k =>
  initVal seed entropy (2 * (f * Kn + k) + 1)

/-- Modelled from the spec: NMF factorisation of the magnitude matrix into
bases and activations by iterated multiplicative updates from a seeded
non-negative initialisation (flucoma-core NMF process, not under src/).
This models only the successful iteration path of section 4.4; the
failure clause of that section (K below 1, iterations below 1 or an
empty magnitude input are configuration errors fatal to the call) is not
modelled here, so no theorem in this file may conclude anything about
the overall success or failure of a call with such a configuration. -/
def nmfProcess (V : Mat) (Kn Fn Bn iters : ℕ) (seed : Int)
    (entropy : ℕ → ℚ) : Mat × Mat :=
  nmfIter V Kn Fn Bn iters (nmfInitW seed entropy Bn, nmfInitH seed entropy Kn)

/-- Modelled from the spec: the magnitude contribution of one component,
the outer product of the selected activations column and bases row
(flucoma-core NMF estimate, not under src/). -/
def nmfEstimate (W H : Mat) (c : ℕ) : Mat := fun f b => H f c * W c b

/-- The full-reconstruction magnitude accumulated in Resynthesize:
the sum of the per-component estimates over all supplied components. -/
def fullMagnitude (W H : Mat) (Kn : ℕ) : Mat := fun f b =>
  ∑ i ∈ Finset.range Kn, nmfEstimate W H i f b

/-- Modelled from the spec: the ratio-mask value for one bin, the
component magnitude over the floored total magnitude raised to the
exponent and clamped to [0, 1]; a total magnitude at or below the floor
yields mask 0 (flucoma-core RatioMask, not under src/). -/
def maskValue (compMag totalMag : ℚ) (e : ℕ) : ℚ :=
  if totalMag ≤ nmfEps then 0
  else min 1 (max 0 ((compMag / max totalMag nmfEps) ^ e))

/-- The bases marshalling loop of Process: an outer array of mComponents
rows, each an inner array of nBins entries read as bases(i, j). -/
def basesArray (W : Mat) (Kn Bn : ℕ) : List (List ℚ) :=
  (List.range Kn).map fun i => (List.range Bn).map fun j => W i j

/-- The activations marshalling loop of Process: an outer array of
mComponents rows, each an inner array of nWindows entries read as
activations(j, i). -/
def activationsArray (H : Mat) (Kn Fn : ℕ) : List (List ℚ) :=
  (List.range Kn).map fun i => (List.range Fn).map fun j => H j i

/-- The result object Process builds on success. -/
structure ProcessResult where
  components : Int
  iterations : Int
  converged : Bool
  bases : List (List ℚ)
  activations : List (List ℚ)
deriving Repr, DecidableEq

/-- The Process method of BufNMF: after the argument type check it derives
hop, window, bin and frame counts, runs the STFT magnitude collaborator
and the NMF, and marshals the result; it performs no validation of the
signal length or of the configuration. -/
def Process (cfg : BufNMFConfig) (stftMag : ℕ → ℕ → ℕ → List ℚ → Mat)
    (entropy : ℕ → ℚ) (info : List JsVal) : Except NapiError ProcessResult :=
  match info with
  | JsVal.f32array audio :: JsVal.num _ :: _ =>
    let hop := (effHopSize cfg).toNat
    let win := (effWindowSize cfg).toNat
    let Bn := (nBins cfg).toNat
    let Fn := frameCount audio.length hop
    let Kn := cfg.components.toNat
    let V := stftMag win cfg.fftSize.toNat hop audio
    let WH := nmfProcess V Kn Fn Bn cfg.iterations.toNat cfg.seed entropy
    Except.ok
      { components := cfg.components
        iterations := cfg.iterations
        converged := true
        bases := basesArray WH.1 Kn Bn
        activations := activationsArray WH.2 Kn Fn }
  | _ => Except.error NapiError.typeError

/-- Truncation of a JS number toward zero, as Int32Value performs it. -/
def jsInt32 (q : ℚ) : Int := if 0 ≤ q then ⌊q⌋ else -⌊-q⌋

/-- The bases loading loop of Resynthesize: the (numComponents, nBins)
tensor is zero initialised and entry (i, j) is copied from row i of the
supplied array only while j is below both the supplied row length and
nBins; shorter rows stay zero padded, longer rows are truncated. -/
def loadBases (basesJS : List (List ℚ)) (Kn Bn : ℕ) : Mat := fun i j =>
  if i < Kn ∧ j < Bn ∧ j < (basesJS.getD i []).length
  then (basesJS.getD i []).getD j 0 else 0

/-- The activations loading loop of Resynthesize: entry (j, i) of the
(nWindows, numComponents) tensor is copied from row i of the supplied
array while j is below both the supplied row length and nWindows, so the
supplied layout is component major. -/
def loadActivations (actsJS : List (List ℚ)) (Kn Fn : ℕ) : Mat := fun f k =>
  if k < Kn ∧ f < Fn ∧ f < (actsJS.getD k []).length
  then (actsJS.getD k []).getD f 0 else 0

/-- The Resynthesize method of BufNMF: after the argument type check it
validates only the component index against the number of supplied bases
rows, loads the matrices with zero padding and truncation, runs the
forward STFT collaborator, estimates the component and total magnitudes,
applies the ratio mask to the spectrum preserving phase, and returns the
inverse STFT of the masked spectrum. -/
def Resynthesize (cfg : BufNMFConfig)
    (stftC : ℕ → ℕ → ℕ → List ℚ → ℕ → ℕ → ℚ × ℚ)
    (istftFn : ℕ → ℕ → ℕ → (ℕ → ℕ → ℚ × ℚ) → ℕ → List ℚ)
    (info : List JsVal) : Except NapiError (List ℚ) :=
  match info with
  | JsVal.f32array audio :: JsVal.num _ :: JsVal.jsarray basesJS ::
      JsVal.jsarray actsJS :: JsVal.num idxQ :: _ =>
    let hop := (effHopSize cfg).toNat
    let win := (effWindowSize cfg).toNat
    let Bn := (nBins cfg).toNat
    let Fn := frameCount audio.length hop
    let Kn := basesJS.length
    let idx := jsInt32 idxQ
    if idx < 0 ∨ (Kn : Int) ≤ idx then Except.error NapiError.rangeError
    else
      let W := loadBases basesJS Kn Bn
      let H := loadActivations actsJS Kn Fn
      let spectrum := stftC win cfg.fftSize.toNat hop audio
      let compMag := nmfEstimate W H idx.toNat
      let fullMag := fullMagnitude W H Kn
      let compSpectrum : ℕ → ℕ → ℚ × ℚ := fun f b =>
        (maskValue (compMag f b) (fullMag f b) 1 * (spectrum f b).1,
         maskValue (compMag f b) (fullMag f b) 1 * (spectrum f b).2)
      Except.ok (istftFn win cfg.fftSize.toNat hop compSpectrum audio.length)
  | _ => Except.error NapiError.typeError

/-- A small concrete configuration used in concrete evaluations:
one component, zero iterations, fftSize 2 (so window 2, hop 1, two bins),
deterministic seed 0. -/
def cfg1 : BufNMFConfig :=
  { components := 1, iterations := 0, fftSize := 2, seed := 0 }

/-- The configuration of the C3 failing input: fftSize 0 with all other
fields defaulted, a non-positive transform size the spec requires to be
rejected with a ConfigurationError before any computation. -/
def cfgCrash : BufNMFConfig := { fftSize := 0 }

/-- A concrete entropy oracle. -/
def entropy0 : ℕ → ℚ := fun _ => 0

/-- A second concrete entropy oracle, different from the first. -/
def entropy1 : ℕ → ℚ := fun n => (n : ℚ) + 7

/-- A concrete STFT-magnitude collaborator instance. -/
def stftMag0 : ℕ → ℕ → ℕ → List ℚ → Mat := fun _ _ _ _ _ _ => 0

/-- A concrete complex-STFT collaborator instance. -/
def stftC0 : ℕ → ℕ → ℕ → List ℚ → ℕ → ℕ → ℚ × ℚ := fun _ _ _ _ _ _ => (0, 0)

/-- A concrete inverse-STFT collaborator instance. -/
def istft0 : ℕ → ℕ → ℕ → (ℕ → ℕ → ℚ × ℚ) → ℕ → List ℚ :=
  fun _ _ _ _ n => List.replicate n 0

/-- A concrete argument list for Process: a one-sample signal and a
sample rate. -/
def demoInfo : List JsVal := [JsVal.f32array [1], JsVal.num 44100]

/-- An inert ProcessResult used as a getD default. -/
def emptyResult : ProcessResult := ⟨0, 0, false, [], []⟩

/-- The result Process computes on the concrete demo call. -/
def demoResult : ProcessResult :=
  (Process cfg1 stftMag0 entropy0 demoInfo).toOption.getD emptyResult

/-- C2 counterexample: on the concrete demo call the signal (length 1) is
shorter than the effective window size (2), yet Process succeeds instead
of failing with an InputTooShortError. -/
theorem C2_counterexample :
    (Process cfg1 stftMag0 entropy0 demoInfo).toOption.isSome = true ∧
    ([(1 : ℚ)]).length < (effWindowSize cfg1).toNat := by
  exact ⟨rfl, by decide⟩

/-- C2 (amended): Process performs no validation of the signal length: a
signal shorter than the effective window size is accepted, handed to the
framing collaborator (which zero-pads), and a normal result is returned;
no InputTooShortError exists in the code. -/
theorem C2_amended (cfg : BufNMFConfig) (stftMag : ℕ → ℕ → ℕ → List ℚ → Mat)
    (entropy : ℕ → ℚ) (audio : List ℚ) (sr : ℚ) (rest : List JsVal)
    (hshort : audio.length < (effWindowSize cfg).toNat) :
    (Process cfg stftMag entropy
      (JsVal.f32array audio :: JsVal.num sr :: rest)).toOption.isSome = true :=
  rfl

/-- C2 witness: the amended statement applied to the concrete demo call. -/
theorem C2_witness :
    (Process cfg1 stftMag0 entropy0
      (JsVal.f32array [1] :: JsVal.num 44100 :: [])).toOption.isSome = true :=
  C2_amended cfg1 stftMag0 entropy0 [1] 44100 [] (by decide)

/-- C3: evaluation of the code at the failing input.  The constructor
stores fftSize 0 without validation and Process derives an effective hop
size of 0 from it, so the frame-count expression of line 97 divides by
zero (the divisor of frameCount is exactly this effective hop size); the
claimed rejection with a ConfigurationError before any computation does
not exist in the code. -/
theorem C3_theorem :
    cfgCrash.fftSize < 1 ∧ effHopSize cfgCrash = 0 ∧
    (effHopSize cfgCrash).toNat = 0 := by
  decide

/-- C5: for every componentIndex outside [0, K), where K is the number of
supplied bases rows, Resynthesize fails with the component-index range
error, before any numeric work and with no partial output. -/
theorem C5_theorem (cfg : BufNMFConfig)
    (stftC : ℕ → ℕ → ℕ → List ℚ → ℕ → ℕ → ℚ × ℚ)
    (istftFn : ℕ → ℕ → ℕ → (ℕ → ℕ → ℚ × ℚ) → ℕ → List ℚ)
    (audio : List ℚ) (sr : ℚ) (basesJS actsJS : List (List ℚ)) (idxQ : ℚ)
    (rest : List JsVal)
    (hbad : jsInt32 idxQ < 0 ∨ (basesJS.length : Int) ≤ jsInt32 idxQ) :
    Resynthesize cfg stftC istftFn
      (JsVal.f32array audio :: JsVal.num sr :: JsVal.jsarray basesJS ::
        JsVal.jsarray actsJS :: JsVal.num idxQ :: rest) =
      Except.error NapiError.rangeError := by
  simp only [Resynthesize]
  rw [if_pos hbad]

/-- C5 witness: componentIndex equal to the supplied component count
(one past the valid range) is rejected with the range error. -/
theorem C5_witness :
    Resynthesize cfg1 stftC0 istft0
      (JsVal.f32array [1] :: JsVal.num 44100 :: JsVal.jsarray [[1, 1]] ::
        JsVal.jsarray [[1, 1]] :: JsVal.num 1 :: []) =
      Except.error NapiError.rangeError :=
  C5_theorem cfg1 stftC0 istft0 [1] 44100 [[1, 1]] [[1, 1]] 1 []
    (Or.inr (by decide))

/-- C10: the result of Process is identical for any two numeric values of
the sampleRate argument (the argument is required to be a number by the
type check, but its value is never read), and a non-number sampleRate is
rejected with the argument type error. -/
theorem C10_theorem (cfg : BufNMFConfig) (stftMag : ℕ → ℕ → ℕ → List ℚ → Mat)
    (entropy : ℕ → ℚ) (audio : List ℚ) (sr1 sr2 : ℚ) (rest : List JsVal) :
    Process cfg stftMag entropy
        (JsVal.f32array audio :: JsVal.num sr1 :: rest) =
      Process cfg stftMag entropy
        (JsVal.f32array audio :: JsVal.num sr2 :: rest) ∧
    Process cfg stftMag entropy
        (JsVal.f32array audio :: JsVal.other :: rest) =
      Except.error NapiError.typeError :=
  ⟨rfl, rfl⟩

/-- C1 counterexample: on the concrete demo call (one component, frame
count 2) the returned activations value has 1 outer entry, the component
count, not the frame count 2 the claimed real[F][K] layout requires. -/
theorem C1_counterexample :
    (Process cfg1 stftMag0 entropy0 demoInfo).toOption.map
        (fun r => r.activations.length) = some 1 ∧
    frameCount ([(1 : ℚ)]).length (effHopSize cfg1).toNat = 2 ∧
    (1 : ℕ) ≠ 2 := by
  exact ⟨rfl, rfl, by decide⟩

/-- C1 (amended): the activations value is component-major, real[K][F]:
the outer sequence returned by Process has K entries and entry k is the
list of F per-frame gains H(j, k); symmetrically Resynthesize consumes its
activations parameter in the same K-major layout, reading tensor entry
(frame f, component k) from row k, position f of the supplied array. -/
theorem C1_amended (H : Mat) (Kn Fn : ℕ) (actsJS : List (List ℚ)) (k f : ℕ)
    (hk : k < Kn) (hf : f < Fn) (hlen : f < (actsJS.getD k []).length) :
    (activationsArray H Kn Fn).length = Kn ∧
    (∀ row ∈ activationsArray H Kn Fn, row.length = Fn) ∧
    (activationsArray H Kn Fn)[k]? =
      some ((List.range Fn).map fun j => H j k) ∧
    loadActivations actsJS Kn Fn f k = (actsJS.getD k []).getD f 0 := by
  refine ⟨?_, ?_, ?_, ?_⟩
  · simp [activationsArray]
  · intro row hrow
    simp only [activationsArray, List.mem_map] at hrow
    obtain ⟨i, _, hrow⟩ := hrow
    simp [← hrow]
  · rw [activationsArray, List.getElem?_map, List.getElem?_range hk]
    rfl
  · simp only [loadActivations]
    rw [if_pos ⟨hk, hf, hlen⟩]

/-- C1 witness: the amended statement applied at a concrete matrix,
grid and supplied activations array. -/
theorem C1_witness :
    (activationsArray (fun _ _ => 1) 1 2).length = 1 ∧
    (∀ row ∈ activationsArray (fun _ _ => 1) 1 2, row.length = 2) ∧
    (activationsArray (fun _ _ => 1) 1 2)[0]? =
      some ((List.range 2).map fun _ => 1) ∧
    loadActivations [[3, 4]] 1 2 1 0 = ([[(3 : ℚ), 4]].getD 0 []).getD 1 0 :=
  C1_amended (fun _ _ => 1) 1 2 [[3, 4]] 0 1 (by decide) (by decide) (by decide)

/-- C4 counterexample: a concrete Resynthesize call whose supplied bases
and activations rows have length 1 while the grid implied by signal and
configuration needs 2 bins and 2 frames; the call succeeds instead of
aborting with a ShapeMismatchError. -/
theorem C4_counterexample :
    (Resynthesize cfg1 stftC0 istft0
      (JsVal.f32array [1] :: JsVal.num 44100 :: JsVal.jsarray [[5]] ::
        JsVal.jsarray [[3]] :: JsVal.num 0 :: [])).toOption.isSome = true ∧
    ([[(5 : ℚ)]].getD 0 []).length ≠ (nBins cfg1).toNat := by
  exact ⟨rfl, by decide⟩

/-- C4 (amended): Resynthesize performs no shape validation of the
supplied bases and activations: any row lengths are accepted and the call
proceeds to the numeric work; entries missing from a short row are read
as zero (silent zero-padding) and entries beyond the expected bin count
are ignored (silent truncation). -/
theorem C4_amended (cfg : BufNMFConfig)
    (stftC : ℕ → ℕ → ℕ → List ℚ → ℕ → ℕ → ℚ × ℚ)
    (istftFn : ℕ → ℕ → ℕ → (ℕ → ℕ → ℚ × ℚ) → ℕ → List ℚ)
    (audio : List ℚ) (sr : ℚ) (basesJS actsJS : List (List ℚ)) (idxQ : ℚ)
    (rest : List JsVal) (i j : ℕ)
    (hidx : 0 ≤ jsInt32 idxQ ∧ jsInt32 idxQ < (basesJS.length : Int)) :
    (Resynthesize cfg stftC istftFn
      (JsVal.f32array audio :: JsVal.num sr :: JsVal.jsarray basesJS ::
        JsVal.jsarray actsJS :: JsVal.num idxQ :: rest)).toOption.isSome
      = true ∧
    ((basesJS.getD i []).length ≤ j →
      loadBases basesJS basesJS.length (nBins cfg).toNat i j = 0) ∧
    ((nBins cfg).toNat ≤ j →
      loadBases basesJS basesJS.length (nBins cfg).toNat i j = 0) ∧
    ((actsJS.getD i []).length ≤ j →
      loadActivations actsJS basesJS.length
        (frameCount audio.length (effHopSize cfg).toNat) j i = 0) := by
  have hcond : ¬(jsInt32 idxQ < 0 ∨ (basesJS.length : Int) ≤ jsInt32 idxQ) := by
    simp only [not_or, not_lt, not_le]
    exact hidx
  refine ⟨?_, ?_, ?_, ?_⟩
  · simp only [Resynthesize]
    rw [if_neg hcond]
    rfl
  · intro h
    simp only [loadBases]
    rw [if_neg (by omega)]
  · intro h
    simp only [loadBases]
    rw [if_neg (by omega)]
  · intro h
    simp only [loadActivations]
    rw [if_neg (by omega)]

/-- C4 witness: the amended statement applied to the concrete
shape-mismatched call. -/
theorem C4_witness :
    (Resynthesize cfg1 stftC0 istft0
      (JsVal.f32array [1] :: JsVal.num 44100 :: JsVal.jsarray [[5]] ::
        JsVal.jsarray [[3]] :: JsVal.num 0 :: [])).toOption.isSome = true ∧
    (([[(5 : ℚ)]].getD 0 []).length ≤ 1 →
      loadBases [[5]] ([[(5 : ℚ)]]).length (nBins cfg1).toNat 0 1 = 0) ∧
    ((nBins cfg1).toNat ≤ 1 →
      loadBases [[5]] ([[(5 : ℚ)]]).length (nBins cfg1).toNat 0 1 = 0) ∧
    (([[(3 : ℚ)]].getD 0 []).length ≤ 1 →
      loadActivations [[3]] ([[(5 : ℚ)]]).length
        (frameCount ([(1 : ℚ)]).length (effHopSize cfg1).toNat) 1 0 = 0) :=
  C4_amended cfg1 stftC0 istft0 [1] 44100 [[5]] [[3]] 0 [] 0 1
    ⟨by decide, by decide⟩

/-- C6: for every call that Process answers successfully, the returned
bases value is a K-by-B matrix (K rows of B entries each), with the bin
count B = fftSize / 2 + 1 and the frame count F = floor of
(N + hopSize) / hopSize governing the length of every activations row. -/
theorem C6_theorem (cfg : BufNMFConfig) (stftMag : ℕ → ℕ → ℕ → List ℚ → Mat)
    (entropy : ℕ → ℚ) (audio : List ℚ) (sr : ℚ) (rest : List JsVal)
    (r : ProcessResult)
    (hok : Process cfg stftMag entropy
      (JsVal.f32array audio :: JsVal.num sr :: rest) = Except.ok r) :
    r.bases.length = cfg.components.toNat ∧
    (∀ row ∈ r.bases, row.length = (nBins cfg).toNat) ∧
    nBins cfg = cfg.fftSize / 2 + 1 ∧
    (∀ row ∈ r.activations,
      row.length = frameCount audio.length (effHopSize cfg).toNat) ∧
    frameCount audio.length (effHopSize cfg).toNat =
      (audio.length + (effHopSize cfg).toNat) / (effHopSize cfg).toNat := by
  simp only [Process, Except.ok.injEq] at hok
  subst hok
  refine ⟨?_, ?_, rfl, ?_, rfl⟩
  · simp [basesArray]
  · intro row hrow
    simp only [basesArray, List.mem_map] at hrow
    obtain ⟨i, _, hrow⟩ := hrow
    simp [← hrow]
  · intro row hrow
    simp only [activationsArray, List.mem_map] at hrow
    obtain ⟨i, _, hrow⟩ := hrow
    simp [← hrow]

/-- C6 witness: the shape statement applied to the concrete demo call. -/
theorem C6_witness :
    demoResult.bases.length = cfg1.components.toNat ∧
    (∀ row ∈ demoResult.bases, row.length = (nBins cfg1).toNat) ∧
    nBins cfg1 = cfg1.fftSize / 2 + 1 ∧
    (∀ row ∈ demoResult.activations,
      row.length = frameCount ([(1 : ℚ)]).length (effHopSize cfg1).toNat) ∧
    frameCount ([(1 : ℚ)]).length (effHopSize cfg1).toNat =
      (([(1 : ℚ)]).length + (effHopSize cfg1).toNat) / (effHopSize cfg1).toNat :=
  C6_theorem cfg1 stftMag0 entropy0 [1] 44100 [] demoResult rfl

/-- C7: every ratio-mask value computed for a non-negative component and
total magnitude pair lies in [0, 1], and every bin whose total magnitude
is at or below the floor (including exactly 0) gets mask value 0, with no
division fault. -/
theorem C7_theorem (c t : ℚ) (e : ℕ) (hc : 0 ≤ c) (ht : 0 ≤ t) :
    0 ≤ maskValue c t e ∧ maskValue c t e ≤ 1 ∧
    (t ≤ nmfEps → maskValue c t e = 0) := by
  unfold maskValue
  by_cases h : t ≤ nmfEps
  · rw [if_pos h]
    exact ⟨le_refl 0, by norm_num, fun _ => rfl⟩
  · rw [if_neg h]
    refine ⟨le_min (by norm_num) (le_max_left 0 _), min_le_left 1 _, ?_⟩
    intro ht2
    exact absurd ht2 h

/-- C7 witness: the mask statement at total magnitude exactly 0. -/
theorem C7_witness :
    0 ≤ maskValue 1 0 1 ∧ maskValue 1 0 1 ≤ 1 ∧
    (0 ≤ nmfEps → maskValue 1 0 1 = 0) :=
  C7_theorem 1 0 1 (by norm_num) (le_refl 0)

theorem nmfEps_pos : 0 < nmfEps := by
  norm_num [nmfEps]

theorem rngVal_nonneg (seed idx : ℕ) : 0 ≤ rngVal seed idx := by
  unfold rngVal
  positivity

theorem initVal_nonneg (seed : Int) (entropy : ℕ → ℚ) (idx : ℕ) :
    0 ≤ initVal seed entropy idx := by
  unfold initVal
  split
  · exact rngVal_nonneg _ _
  · exact abs_nonneg _

theorem reconAt_nonneg {W H : Mat} (Kn : ℕ) (hW : ∀ k b, 0 ≤ W k b)
    (hH : ∀ f k, 0 ≤ H f k) (f b : ℕ) : 0 ≤ reconAt W H Kn f b :=
  Finset.sum_nonneg fun k _ => mul_nonneg (hH f k) (hW k b)

theorem updateH_nonneg {V W H : Mat} (Kn Bn : ℕ) (hV : ∀ f b, 0 ≤ V f b)
    (hW : ∀ k b, 0 ≤ W k b) (hH : ∀ f k, 0 ≤ H f k) (f k : ℕ) :
    0 ≤ updateH V W H Kn Bn f k := by
  unfold updateH
  refine mul_nonneg (hH f k) (div_nonneg ?_ ?_)
  · exact Finset.sum_nonneg fun b _ => mul_nonneg (hW k b) (hV f b)
  · exact add_nonneg
      (Finset.sum_nonneg fun b _ =>
        mul_nonneg (hW k b) (reconAt_nonneg Kn hW hH f b))
      nmfEps_pos.le

theorem updateW_nonneg {V W H : Mat} (Kn Fn : ℕ) (hV : ∀ f b, 0 ≤ V f b)
    (hW : ∀ k b, 0 ≤ W k b) (hH : ∀ f k, 0 ≤ H f k) (k b : ℕ) :
    0 ≤ updateW V W H Kn Fn k b := by
  unfold updateW
  refine mul_nonneg (hW k b) (div_nonneg ?_ ?_)
  · exact Finset.sum_nonneg fun f _ => mul_nonneg (hH f k) (hV f b)
  · exact add_nonneg
      (Finset.sum_nonneg fun f _ =>
        mul_nonneg (hH f k) (reconAt_nonneg Kn hW hH f b))
      nmfEps_pos.le

theorem nmfIter_nonneg (V : Mat) (Kn Fn Bn : ℕ) (hV : ∀ f b, 0 ≤ V f b)
    (n : ℕ) :
    ∀ WH : Mat × Mat, (∀ k b, 0 ≤ WH.1 k b) → (∀ f k, 0 ≤ WH.2 f k) →
      (∀ k b, 0 ≤ (nmfIter V Kn Fn Bn n WH).1 k b) ∧
      (∀ f k, 0 ≤ (nmfIter V Kn Fn Bn n WH).2 f k) := by
  induction n with
  | zero =>
    intro WH hW hH
    exact ⟨hW, hH⟩
  | succ n ih =>
    intro WH hW hH
    have hH2 : ∀ f k, 0 ≤ updateH V WH.1 WH.2 Kn Bn f k :=
      fun f k => updateH_nonneg Kn Bn hV hW hH f k
    have hW2 : ∀ k b, 0 ≤ updateW V WH.1 (updateH V WH.1 WH.2 Kn Bn) Kn Fn k b :=
      fun k b => updateW_nonneg Kn Fn hV hW hH2 k b
    exact ih (nmfStep V Kn Fn Bn WH) hW2 hH2

theorem nmfProcess_nonneg (V : Mat) (Kn Fn Bn iters : ℕ) (seed : Int)
    (entropy : ℕ → ℚ) (hV : ∀ f b, 0 ≤ V f b) :
    (∀ k b, 0 ≤ (nmfProcess V Kn Fn Bn iters seed entropy).1 k b) ∧
    (∀ f k, 0 ≤ (nmfProcess V Kn Fn Bn iters seed entropy).2 f k) :=
  nmfIter_nonneg V Kn Fn Bn hV iters
    (nmfInitW seed entropy Bn, nmfInitH seed entropy Kn)
    (fun _ _ => initVal_nonneg _ _ _) (fun _ _ => initVal_nonneg _ _ _)

theorem maskValue_nonneg (c t : ℚ) (e : ℕ) : 0 ≤ maskValue c t e := by
  unfold maskValue
  split
  · exact le_refl 0
  · exact le_min (by norm_num) (le_max_left 0 _)

/-- The all-zero magnitude matrix, the magnitude of a silent signal. -/
def zeroMat : Mat := fun _ _ => 0

/-- C8: for every non-negative input magnitude matrix and every iteration
count (0 included), every entry of the bases and activations produced by
the NMF, of every per-component and total magnitude estimate computed
from them, and of the ratio mask, is non-negative. -/
theorem C8_theorem (V : Mat) (Kn Fn Bn iters : ℕ) (seed : Int)
    (entropy : ℕ → ℚ) (hV : ∀ f b, 0 ≤ V f b) :
    (∀ k b, 0 ≤ (nmfProcess V Kn Fn Bn iters seed entropy).1 k b) ∧
    (∀ f k, 0 ≤ (nmfProcess V Kn Fn Bn iters seed entropy).2 f k) ∧
    (∀ c f b, 0 ≤ nmfEstimate (nmfProcess V Kn Fn Bn iters seed entropy).1
      (nmfProcess V Kn Fn Bn iters seed entropy).2 c f b) ∧
    (∀ f b, 0 ≤ fullMagnitude (nmfProcess V Kn Fn Bn iters seed entropy).1
      (nmfProcess V Kn Fn Bn iters seed entropy).2 Kn f b) ∧
    (∀ cm tm : ℚ, ∀ e : ℕ, 0 ≤ maskValue cm tm e) := by
  obtain ⟨hW, hH⟩ := nmfProcess_nonneg V Kn Fn Bn iters seed entropy hV
  refine ⟨hW, hH, ?_, ?_, fun cm tm e => maskValue_nonneg cm tm e⟩
  · intro c f b
    exact mul_nonneg (hH f c) (hW c b)
  · intro f b
    exact Finset.sum_nonneg fun i _ => mul_nonneg (hH f i) (hW i b)

/-- C8 witness: the non-negativity statement at the all-zero magnitude
matrix, one component, two frames, two bins, one iteration, seed 0. -/
theorem C8_witness :
    (∀ k b, 0 ≤ (nmfProcess zeroMat 1 2 2 1 0 entropy0).1 k b) ∧
    (∀ f k, 0 ≤ (nmfProcess zeroMat 1 2 2 1 0 entropy0).2 f k) ∧
    (∀ c f b, 0 ≤ nmfEstimate (nmfProcess zeroMat 1 2 2 1 0 entropy0).1
      (nmfProcess zeroMat 1 2 2 1 0 entropy0).2 c f b) ∧
    (∀ f b, 0 ≤ fullMagnitude (nmfProcess zeroMat 1 2 2 1 0 entropy0).1
      (nmfProcess zeroMat 1 2 2 1 0 entropy0).2 1 f b) ∧
    (∀ cm tm : ℚ, ∀ e : ℕ, 0 ≤ maskValue cm tm e) :=
  C8_theorem zeroMat 1 2 2 1 0 entropy0 (fun _ _ => le_refl 0)

theorem initVal_entropy_indep (seed : Int) (h : 0 ≤ seed) (e1 e2 : ℕ → ℚ) :
    initVal seed e1 = initVal seed e2 := by
  funext idx
  unfold initVal
  rw [if_pos h, if_pos h]

theorem nmfProcess_entropy_indep (V : Mat) (Kn Fn Bn iters : ℕ) (seed : Int)
    (e1 e2 : ℕ → ℚ) (h : 0 ≤ seed) :
    nmfProcess V Kn Fn Bn iters seed e1 = nmfProcess V Kn Fn Bn iters seed e2 := by
  unfold nmfProcess nmfInitW nmfInitH
  rw [initVal_entropy_indep seed h e1 e2]

/-- C9: two Process calls with identical input signal, identical
configuration and a non-negative seed produce identical results, entry
for entry, whatever the state of the system entropy source: with a
non-negative seed the initialisation never consults entropy. -/
theorem C9_theorem (cfg : BufNMFConfig) (stftMag : ℕ → ℕ → ℕ → List ℚ → Mat)
    (e1 e2 : ℕ → ℚ) (audio : List ℚ) (sr : ℚ) (rest : List JsVal)
    (hseed : 0 ≤ cfg.seed) :
    Process cfg stftMag e1 (JsVal.f32array audio :: JsVal.num sr :: rest) =
      Process cfg stftMag e2 (JsVal.f32array audio :: JsVal.num sr :: rest) := by
  simp only [Process]
  rw [nmfProcess_entropy_indep _ _ _ _ _ _ e1 e2 hseed]

/-- C9 witness: the determinism statement on the concrete demo call with
two different entropy oracles. -/
theorem C9_witness :
    Process cfg1 stftMag0 entropy0
        (JsVal.f32array [1] :: JsVal.num 44100 :: []) =
      Process cfg1 stftMag0 entropy1
        (JsVal.f32array [1] :: JsVal.num 44100 :: []) :=
  C9_theorem cfg1 stftMag0 entropy0 entropy1 [1] 44100 [] (by decide)

end Bounce
